import Mathlib

/-!
Verification of the task state-management core of the advanced task manager:
the reducer, the derived view pipeline, analytics, and the persistence
round-trip. JavaScript `Date` values are embedded as `Int` millisecond
timestamps; JS arrays as `List`; `null`-able fields as `Option`.
-/

namespace TaskMgr

/-- A tag, as in the source `TaskTag` type. -/
structure TaskTag where
  id : String
  name : String
  color : String
deriving DecidableEq, Repr

/-- A task, as in the source `Task` type. `dueDate`, `createdAt` are JS `Date`
values embedded as millisecond timestamps; `completedAt` is `Date | null`. -/
structure Task where
  id : String
  name : String
  description : String
  dueDate : Int
  completed : Bool
  priority : Int
  tags : List String
  createdAt : Int
  completedAt : Option Int
  position : Int
deriving DecidableEq, Repr

/-- The reducer state, as in the source `TasksState` type. -/
structure TasksState where
  tasks : List Task
  tags : List TaskTag
deriving DecidableEq, Repr

/-- The reducer action type, as in the source `TaskAction` union.
`TOGGLE_TASK` carries `{ id, date }`. -/
inductive TaskAction where
  | addTask (payload : Task)
  | toggleTask (id : String) (date : Int)
  | deleteTask (payload : String)
  | editTask (payload : Task)
  | replaceAll (payload : TasksState)
  | reorderTasks (payload : List Task)
  | addTag (payload : TaskTag)
  | editTag (payload : TaskTag)
  | deleteTag (payload : String)
deriving DecidableEq, Repr

/-- The source `tasksReducer` function, case by case. -/
def tasksReducer (state : TasksState) (action : TaskAction) : TasksState :=
  match action with
  | .addTask payload =>
      { state with tasks := state.tasks ++ [payload] }
  | .toggleTask id date =>
      { state with tasks := state.tasks.map (fun task =>
          if task.id = id then
            { task with
                completed := !task.completed,
                completedAt := if !task.completed then some date else none }
          else task) }
  | .deleteTask payload =>
      { state with tasks := state.tasks.filter (fun task => task.id ≠ payload) }
  | .editTask payload =>
      { state with tasks := state.tasks.map (fun task =>
          if task.id = payload.id then payload else task) }
  | .replaceAll payload => payload
  | .reorderTasks payload =>
      { state with tasks := payload }
  | .addTag payload =>
      { state with tags := state.tags ++ [payload] }
  | .editTag payload =>
      { state with tags := state.tags.map (fun tag =>
          if tag.id = payload.id then payload else tag) }
  | .deleteTag payload =>
      { state with
          tags := state.tags.filter (fun tag => tag.id ≠ payload),
          tasks := state.tasks.map (fun task =>
            { task with tags := task.tags.filter (fun tagId => tagId ≠ payload) }) }

/-! ## Derived view pipeline -/

/-- Model of JS `String.prototype.toLowerCase` (per character). -/
def jsToLower (s : String) : String :=
  String.mk (s.data.map Char.toLower)

/-- Model of JS `String.prototype.trim`: strip leading and trailing whitespace. -/
def jsTrim (s : String) : String :=
  String.mk (((s.data.dropWhile Char.isWhitespace).reverse.dropWhile
    Char.isWhitespace).reverse)

/-- Model of JS `String.prototype.includes`: `sub` occurs contiguously in `s`. -/
def jsIncludes (s sub : String) : Bool :=
  s.data.tails.any (fun t => sub.data.isPrefixOf t)

/-- The status filter values `"all" | "completed" | "active"`. -/
inductive StatusFilter where
  | all | completed | active
deriving DecidableEq, Repr

/-- The sort keys `"dueDate" | "priority" | "name" | "createdAt"`. -/
inductive SortKey where
  | dueDate | priority | name | createdAt
deriving DecidableEq, Repr

/-- The source `filteredAndSortedTasks` memo: copy the task list, apply the
search, status, priority and tag filters in order, then sort with the
comparator selected by `sortBy`. JS `Array.prototype.sort` is stable
(ES2019), embedded as a stable insertion sort on the relation
"comparator result is not positive"; `localeCompare` is embedded as
code-unit string order. -/
def filteredAndSortedTasks (tasks : List Task) (searchQuery : String)
    (statusFilter : StatusFilter) (priorityFilter : Option Int)
    (tagFilter : Option String) (sortBy : SortKey) : List Task :=
  let filtered := tasks
  let filtered :=
    if jsTrim searchQuery ≠ "" then
      let query := jsToLower searchQuery
      filtered.filter (fun task =>
        jsIncludes (jsToLower task.name) query ||
        jsIncludes (jsToLower task.description) query)
    else filtered
  let filtered :=
    if statusFilter = .completed then
      filtered.filter (fun task => task.completed)
    else if statusFilter = .active then
      filtered.filter (fun task => !task.completed)
    else filtered
  let filtered :=
    match priorityFilter with
    | some p => filtered.filter (fun task : Task => task.priority = p)
    | none => filtered
  let filtered :=
    match tagFilter with
    | some tg => filtered.filter (fun task : Task => task.tags.contains tg)
    | none => filtered
  match sortBy with
  | .dueDate => filtered.insertionSort (fun a b => a.dueDate ≤ b.dueDate)
  | .priority => filtered.insertionSort (fun a b => b.priority ≤ a.priority)
  | .name => filtered.insertionSort (fun a b => a.name ≤ b.name)
  | .createdAt => filtered.insertionSort (fun a b => b.createdAt ≤ a.createdAt)

/-! ## Drag-end boundary logic -/

/-- The fields of the drag-and-drop library result that `handleDragEnd`
reads: `source.index` and `destination?.index`. -/
structure DragResult where
  source : Nat
  destination : Option Nat
deriving DecidableEq, Repr

/-- The source `handleDragEnd` handler: on a drop with a destination, splice
the dragged item out of the displayed (filtered and sorted) sequence,
reinsert it at the destination index, reassign `position := index` to every
item, and return the `REORDER_TASKS` payload; `none` means no dispatch
(dropped outside a droppable). Indices come from the drag-and-drop library
and address the displayed list. -/
def handleDragEnd (displayed : List Task) (result : DragResult) :
    Option (List Task) :=
  match result.destination with
  | none => none
  | some dest =>
    match displayed[result.source]? with
    | none => none
    | some reorderedItem =>
      let items := displayed.eraseIdx result.source
      let items := items.take dest ++ reorderedItem :: items.drop dest
      some (items.mapIdx (fun index item => { item with position := (index : Int) }))

/-! ## Analytics -/

/-- The source `TaskAnalytics` completion-rate computation: JS number
arithmetic is embedded as exact rational arithmetic. -/
def completionRate (tasks : List Task) : ℚ :=
  let totalTasks := tasks.length
  let completedTasks := (tasks.filter (fun task => task.completed)).length
  if totalTasks > 0 then ((completedTasks : ℚ) / (totalTasks : ℚ)) * 100 else 0

/-! ## Seed data -/

/-- The source seed state passed to `useReducer`, with `now` standing for
`Date.now()` (a day is 24 * 60 * 60 * 1000 ms). -/
def initialState (now : Int) : TasksState :=
  { tasks := [
      { id := "1", name := "Complete React Project",
        description := "Finish developing the advanced task manager component",
        dueDate := now + 3 * 24 * 60 * 60 * 1000, completed := false, priority := 4,
        tags := ["1"], createdAt := now - 2 * 24 * 60 * 60 * 1000,
        completedAt := none, position := 0 },
      { id := "2", name := "Read React Hooks Book",
        description := "Read chapters 3-5 of the book",
        dueDate := now + 7 * 24 * 60 * 60 * 1000, completed := false, priority := 2,
        tags := ["2"], createdAt := now - 5 * 24 * 60 * 60 * 1000,
        completedAt := none, position := 1 },
      { id := "3", name := "Update Resume",
        description := "Add new skills and projects",
        dueDate := now - 2 * 24 * 60 * 60 * 1000, completed := true, priority := 3,
        tags := ["3"], createdAt := now - 10 * 24 * 60 * 60 * 1000,
        completedAt := some (now - 1 * 24 * 60 * 60 * 1000), position := 2 },
      { id := "4", name := "Prepare for Interview",
        description := "Research company and practice common questions",
        dueDate := now + 1 * 24 * 60 * 60 * 1000, completed := false, priority := 5,
        tags := ["1", "3"], createdAt := now - 3 * 24 * 60 * 60 * 1000,
        completedAt := none, position := 3 } ],
    tags := [
      { id := "1", name := "Work", color := "#3b82f6" },
      { id := "2", name := "Learning", color := "#10b981" },
      { id := "3", name := "Personal", color := "#8b5cf6" } ] }

/-! ## Stage predicates of the view pipeline (specification side) -/

/-- A task passes the search stage: empty (after trimming) query passes
everything, otherwise case-insensitive substring match on name or
description. -/
def passesSearch (q : String) (t : Task) : Bool :=
  if jsTrim q ≠ "" then
    jsIncludes (jsToLower t.name) (jsToLower q) ||
    jsIncludes (jsToLower t.description) (jsToLower q)
  else true

/-- A task passes the status stage. -/
def passesStatus (st : StatusFilter) (t : Task) : Bool :=
  match st with
  | .completed => t.completed
  | .active => !t.completed
  | .all => true

/-- A task passes the priority stage (exact match when the filter is set). -/
def passesPriority (pf : Option Int) (t : Task) : Bool :=
  match pf with
  | some p => t.priority = p
  | none => true

/-- A task passes the tag stage (membership when the filter is set). -/
def passesTag (tf : Option String) (t : Task) : Bool :=
  match tf with
  | some tg => t.tags.contains tg
  | none => true

/-- The composition of the four filter stages in source order. -/
def stageFiltered (tasks : List Task) (q : String) (st : StatusFilter)
    (pf : Option Int) (tf : Option String) : List Task :=
  (((tasks.filter (passesSearch q)).filter (passesStatus st)).filter
      (passesPriority pf)).filter (passesTag tf)

/-- Model of `Number.parseInt` restricted to the non-empty decimal digit
strings the priority Select supplies ("0" through "5"). -/
def parseIntDec (s : String) : Int :=
  ((s.data.foldl (fun acc c => acc * 10 + (c.toNat - 48)) 0 : Nat) : Int)

/-- The source priority-filter Select handler:
`setPriorityFilter(value ? Number.parseInt(value) : null)`; a JS string is
truthy exactly when non-empty. -/
def priorityOnValueChange (value : String) : Option Int :=
  if value ≠ "" then some (parseIntDec value) else none

/-- Outcome of dispatching the `REORDER_TASKS` payload built by
`handleDragEnd`: the task collection is replaced by exactly the payload,
tags are untouched, and every task in the payload is a task of the
displayed (filtered and sorted) sequence with only its `position`
reassigned. -/
def ReorderOutcome (state : TasksState) (q : String) (st : StatusFilter)
    (pf : Option Int) (tf : Option String) (sk : SortKey)
    (payload : List Task) : Prop :=
  (tasksReducer state (.reorderTasks payload)).tasks = payload ∧
  (tasksReducer state (.reorderTasks payload)).tags = state.tags ∧
  ∀ t ∈ payload, ∃ u ∈ filteredAndSortedTasks state.tasks q st pf tf sk,
    t = { u with position := t.position }

/-- The data-model invariant: a task is completed exactly when its
completedAt field is present. -/
def taskConsistent (t : Task) : Bool :=
  t.completed == t.completedAt.isSome

/-- The invariant over a whole state. -/
def stateConsistent (s : TasksState) : Bool :=
  s.tasks.all taskConsistent

/-- The tasks an action adopts verbatim into the next state. -/
def actionTasks : TaskAction → List Task
  | .addTask p => [p]
  | .editTask p => [p]
  | .replaceAll p => p.tasks
  | .reorderTasks p => p
  | _ => []

/-- A minimal task literal used in concrete instances. -/
def simpleTask (idArg : String) (completed : Bool) (completedAt : Option Int) : Task :=
  { id := idArg, name := "t", description := "", dueDate := 0,
    completed := completed, priority := 1, tags := [], createdAt := 0,
    completedAt := completedAt, position := 0 }

/-- Behaviour of `TOGGLE_TASK` on the i-th task `t`: one toggle flips
`completed` and sets `completedAt` to the supplied time when the task
becomes completed, to absent when it becomes uncompleted; and when the
task started uncompleted with `completedAt` absent, toggling twice with
any two times restores the task exactly. -/
def ToggleBehavior (s : TasksState) (idArg : String) (d1 d2 : Int)
    (i : Nat) (t : Task) : Prop :=
  ((tasksReducer s (.toggleTask idArg d1)).tasks[i]? =
    some (if t.id = idArg then
            { t with completed := !t.completed,
                     completedAt := if !t.completed then some d1 else none }
          else t)) ∧
  (t.completed = false → t.completedAt = none →
    (tasksReducer (tasksReducer s (.toggleTask idArg d1))
        (.toggleTask idArg d2)).tasks[i]? = some t)

/-! ## Persistence bridge

`JSON.stringify` / `JSON.parse` and the `Date` string form are platform
functions, not repository code; they are modelled structurally: the parsed
JSON tree of the stored slot is `StoredState` (dates as strings, JSON null
as `none`), and the date encoding is an invertible rendering of the
millisecond timestamp. -/

/-- The character of a single decimal digit. -/
def digitChar (d : Nat) : Char := Char.ofNat (48 + d)

/-- The decimal digit of a digit character. -/
def charDigit (c : Char) : Nat := c.toNat - 48

/-- Decimal rendering of a natural number. -/
def natToString (n : Nat) : String :=
  if n = 0 then "0" else String.mk (((Nat.digits 10 n).map digitChar).reverse)

/-- Decimal parsing of a natural number. -/
def stringToNat (s : String) : Nat :=
  Nat.ofDigits 10 ((s.data.map charDigit).reverse)

/-- Modelled from the spec: the canonical serialized form stores dates as
strings (`Date` toJSON under `JSON.stringify`); modelled as an invertible
decimal rendering of the millisecond timestamp. -/
def dateToString (t : Int) : String :=
  if t < 0 then String.mk ('-' :: (natToString t.natAbs).data)
  else natToString t.natAbs

/-- Modelled from the spec: rehydration of a stored date string to a
timestamp (`new Date(string)` in the load effect). -/
def stringToDate (s : String) : Int :=
  if s.data.head? = some '-' then -((stringToNat (String.mk s.data.tail) : Nat) : Int)
  else (stringToNat s : Nat)

/-- A task as it sits in the stored JSON tree: `dueDate`, `createdAt`,
`completedAt` are strings (`completedAt` possibly null). -/
structure StoredTask where
  id : String
  name : String
  description : String
  dueDate : String
  completed : Bool
  priority : Int
  tags : List String
  createdAt : String
  completedAt : Option String
  position : Int
deriving DecidableEq, Repr

/-- The stored JSON tree of the whole slot. -/
structure StoredState where
  tasks : List StoredTask
  tags : List TaskTag
deriving DecidableEq, Repr

/-- Serialization of one task (dates to strings, null for absent
completedAt). -/
def storeTask (t : Task) : StoredTask :=
  { id := t.id, name := t.name, description := t.description,
    dueDate := dateToString t.dueDate, completed := t.completed,
    priority := t.priority, tags := t.tags,
    createdAt := dateToString t.createdAt,
    completedAt := t.completedAt.map dateToString,
    position := t.position }

/-- The save effect: `JSON.stringify(state)` written to the slot, as the
stored tree it denotes. -/
def saveState (s : TasksState) : StoredState :=
  { tasks := s.tasks.map storeTask, tags := s.tags }

/-- The rehydration step of the source load effect: every task's
`dueDate` and `createdAt` become timestamps, `completedAt` becomes a
timestamp when present and stays null otherwise, and `tags` pass through
unchanged. -/
def loadStored (parsedData : StoredState) : TasksState :=
  { tasks := parsedData.tasks.map (fun task =>
      { id := task.id, name := task.name, description := task.description,
        dueDate := stringToDate task.dueDate, completed := task.completed,
        priority := task.priority, tags := task.tags,
        createdAt := stringToDate task.createdAt,
        completedAt := match task.completedAt with
          | some d => some (stringToDate d)
          | none => none,
        position := task.position }),
    tags := parsedData.tags }

/-- The source load effect: read the slot; when a value is present, parse
it (`JSON.parse`, modelled as a parameter whose try/catch outcome is an
`Except`), on success rehydrate and dispatch `REPLACE_ALL`, on failure log
the error and leave the state untouched. Returns the state together with
the console-error log; it is a total function — no failure propagates. -/
def loadEffect (stored : Option String) (parse : String → Except String StoredState)
    (state : TasksState) : TasksState × List String :=
  match stored with
  | none => (state, [])
  | some savedTasks =>
    match parse savedTasks with
    | .ok parsedData => (tasksReducer state (.replaceAll (loadStored parsedData)), [])
    | .error e => (state, ["Error parsing saved tasks: " ++ e])

/-! ## Pipeline decomposition lemmas -/

theorem searchStage_eq (tasks : List Task) (q : String) :
    (if jsTrim q ≠ "" then
       tasks.filter (fun task =>
         jsIncludes (jsToLower task.name) (jsToLower q) ||
         jsIncludes (jsToLower task.description) (jsToLower q))
     else tasks) = tasks.filter (passesSearch q) := by
  by_cases h : jsTrim q ≠ ""
  · rw [if_pos h]
    apply List.filter_congr
    intro a _
    simp [passesSearch, h]
  · rw [if_neg h]
    exact (List.filter_eq_self.mpr (fun a _ => by simp [passesSearch, h])).symm

theorem statusStage_eq (tasks : List Task) (st : StatusFilter) :
    (if st = .completed then tasks.filter (fun task => task.completed)
     else if st = .active then tasks.filter (fun task => !task.completed)
     else tasks) = tasks.filter (passesStatus st) := by
  cases st
  · exact (List.filter_eq_self.mpr (fun a _ => by simp [passesStatus])).symm
  · exact List.filter_congr (fun a _ => by simp [passesStatus])
  · exact List.filter_congr (fun a _ => by simp [passesStatus])

theorem prioStage_eq (tasks : List Task) (pf : Option Int) :
    (match pf with
     | some p => tasks.filter (fun task : Task => task.priority = p)
     | none => tasks) = tasks.filter (passesPriority pf) := by
  cases pf
  · exact (List.filter_eq_self.mpr (fun a _ => by simp [passesPriority])).symm
  · exact List.filter_congr (fun a _ => by simp [passesPriority])

theorem tagStage_eq (tasks : List Task) (tf : Option String) :
    (match tf with
     | some tg => tasks.filter (fun task : Task => task.tags.contains tg)
     | none => tasks) = tasks.filter (passesTag tf) := by
  cases tf
  · exact (List.filter_eq_self.mpr (fun a _ => by simp [passesTag])).symm
  · exact List.filter_congr (fun a _ => by simp [passesTag])

/-- The pipeline is the four filter stages in order followed by the stable
sort selected by the sort key. -/
theorem pipeline_eq (tasks : List Task) (q : String) (st : StatusFilter)
    (pf : Option Int) (tf : Option String) (sk : SortKey) :
    filteredAndSortedTasks tasks q st pf tf sk =
      match sk with
      | .dueDate =>
          (stageFiltered tasks q st pf tf).insertionSort
            (fun a b => a.dueDate ≤ b.dueDate)
      | .priority =>
          (stageFiltered tasks q st pf tf).insertionSort
            (fun a b => b.priority ≤ a.priority)
      | .name =>
          (stageFiltered tasks q st pf tf).insertionSort
            (fun a b => a.name ≤ b.name)
      | .createdAt =>
          (stageFiltered tasks q st pf tf).insertionSort
            (fun a b => b.createdAt ≤ a.createdAt) := by
  simp only [filteredAndSortedTasks, stageFiltered]
  rw [searchStage_eq, statusStage_eq, prioStage_eq, tagStage_eq]

/-! ## Claims -/

/-- C5: on the seed state (4 tasks of priorities [4,2,3,5], exactly the
priority-3 one completed), the pipeline with empty search, status "active",
no priority filter, no tag filter and sort key "priority" excludes the
completed task and yields priorities 5,4,2; in general the pipeline applies
the search, status, priority and tag filters in that order and then sorts
priority-descending. -/
theorem C5_view_pipeline :
    ((filteredAndSortedTasks (initialState 0).tasks "" .active none none .priority).map
        (fun t => t.priority) = [5, 4, 2] ∧
     (filteredAndSortedTasks (initialState 0).tasks "" .active none none .priority).all
        (fun t => !t.completed) = true) ∧
    ∀ (tasks : List Task) (q : String) (st : StatusFilter) (pf : Option Int)
      (tf : Option String),
      (filteredAndSortedTasks tasks q st pf tf .priority).Perm
        (stageFiltered tasks q st pf tf) ∧
      (filteredAndSortedTasks tasks q st pf tf .priority).Sorted
        (fun a b => b.priority ≤ a.priority) := by
  refine ⟨⟨by decide, by decide⟩, ?_⟩
  intro tasks q st pf tf
  rw [pipeline_eq]
  refine ⟨List.perm_insertionSort _ _, ?_⟩
  haveI : IsTotal Task (fun a b => b.priority ≤ a.priority) := ⟨fun a b => le_total _ _⟩
  haveI : IsTrans Task (fun a b => b.priority ≤ a.priority) :=
    ⟨fun _ _ _ h1 h2 => le_trans h2 h1⟩
  exact List.sorted_insertionSort _ _

/-- C10: the "All Priorities" option value "0" is truthy, so the handler
sets the priority filter to the number 0 rather than null, and the exact
match stage then removes every task whose priority lies in 1..5, leaving an
empty displayed list. -/
theorem C10_all_priorities_value_filters_everything :
    priorityOnValueChange "0" = some 0 ∧
    ∀ (tasks : List Task) (q : String) (st : StatusFilter) (tf : Option String)
      (sk : SortKey),
      tasks.all (fun t => 1 ≤ t.priority && t.priority ≤ 5) = true →
      filteredAndSortedTasks tasks q st (priorityOnValueChange "0") tf sk = [] := by
  have h0 : priorityOnValueChange "0" = some 0 := by decide
  refine ⟨h0, ?_⟩
  intro tasks q st tf sk h
  rw [h0, pipeline_eq]
  have hnil : ((tasks.filter (passesSearch q)).filter (passesStatus st)).filter
      (passesPriority (some 0)) = [] := by
    rw [List.filter_eq_nil_iff]
    intro a ha
    have ha' : a ∈ tasks :=
      List.mem_of_mem_filter (List.mem_of_mem_filter ha)
    have hb := List.all_eq_true.mp h a ha'
    simp only [passesPriority, Bool.and_eq_true, decide_eq_true_eq] at hb ⊢
    omega
  simp only [stageFiltered, hnil, List.filter_nil]
  cases sk <;> rfl

/-- C10 witness: with the "0" option selected, the seed tasks (all
priorities between 1 and 5) produce an empty displayed list. -/
theorem C10_all_priorities_value_filters_everything_witness :
    ((initialState 0).tasks.all (fun t => 1 ≤ t.priority && t.priority ≤ 5) = true) ∧
    filteredAndSortedTasks (initialState 0).tasks "" .all
      (priorityOnValueChange "0") none .dueDate = [] :=
  ⟨by decide,
    C10_all_priorities_value_filters_everything.2 (initialState 0).tasks "" .all
      none .dueDate (by decide)⟩

/-- C4: for every prior state and tag id, after a DeleteTag(id) intent the
resulting state contains no tag with that id in its tag collection and no
task whose tag set contains that id. -/
theorem C4_delete_tag_removes_references (s : TasksState) (idArg : String) :
    ((tasksReducer s (.deleteTag idArg)).tags.all (fun tg => !(tg.id == idArg))) = true ∧
    ((tasksReducer s (.deleteTag idArg)).tasks.all (fun t => !(t.tags.contains idArg))) = true := by
  constructor
  · simp only [tasksReducer, List.all_eq_true, List.mem_filter]
    intro tg htg
    simpa using htg.2
  · simp only [tasksReducer, List.all_eq_true, List.mem_map]
    rintro t ⟨u, hu, rfl⟩
    simp [List.mem_filter]

/-- C8: for every task list, completionRate equals
(count of completed tasks / count of all tasks) × 100 when the list is
non-empty, and 0 when it is empty; no division by zero occurs. -/
theorem C8_completion_rate_formula (tasks : List Task) :
    completionRate tasks =
      if tasks.length = 0 then 0
      else ((tasks.countP (fun t => t.completed) : ℚ) / (tasks.length : ℚ)) * 100 := by
  by_cases h : tasks.length = 0
  · simp [completionRate, h]
  · simp only [completionRate]
    rw [if_pos (Nat.pos_of_ne_zero h), if_neg h, List.countP_eq_length_filter]

/-- C9: an EditTask intent whose payload id matches no existing task, and an
EditTag intent whose payload id matches no existing tag, each leave the
state unchanged (a no-op, not an error). -/
theorem C9_edit_missing_id_is_noop (s : TasksState) (tp : Task) (gp : TaskTag)
    (ht : s.tasks.all (fun t => !(t.id == tp.id)) = true)
    (hg : s.tags.all (fun g => !(g.id == gp.id)) = true) :
    tasksReducer s (.editTask tp) = s ∧ tasksReducer s (.editTag gp) = s := by
  simp only [List.all_eq_true] at ht hg
  obtain ⟨tasks, tags⟩ := s
  constructor
  · simp only [tasksReducer, TasksState.mk.injEq, and_true]
    rw [show (List.map (fun task => if task.id = tp.id then tp else task) tasks) =
          tasks.map id from List.map_congr_left ?_, List.map_id]
    intro a ha
    have := ht a ha
    simp_all
  · simp only [tasksReducer, TasksState.mk.injEq, true_and]
    rw [show (List.map (fun tag => if tag.id = gp.id then gp else tag) tags) =
          tags.map id from List.map_congr_left ?_, List.map_id]
    intro a ha
    have := hg a ha
    simp_all

/-- C9 witness: the no-op holds concretely on the seed state for payloads
with the unused id "99". -/
theorem C9_edit_missing_id_is_noop_witness :
    ((initialState 0).tasks.all (fun t => !(t.id == "99")) = true) ∧
    ((initialState 0).tags.all (fun g => !(g.id == "99")) = true) ∧
    (tasksReducer (initialState 0)
        (.editTask { id := "99", name := "x", description := "", dueDate := 0,
                     completed := false, priority := 1, tags := [], createdAt := 0,
                     completedAt := none, position := 0 }) = initialState 0 ∧
     tasksReducer (initialState 0) (.editTag { id := "99", name := "x", color := "#fff" }) =
       initialState 0) :=
  ⟨by decide, by decide,
    C9_edit_missing_id_is_noop (initialState 0) _ _ (by decide) (by decide)⟩

theorem mapIdx_position (l : List Task) :
    ∀ t ∈ l.mapIdx (fun index item => { item with position := (index : Int) }),
      ∃ u ∈ l, t = { u with position := t.position } := by
  intro t ht
  rw [List.mapIdx_eq_enum_map] at ht
  obtain ⟨⟨i, u⟩, hmem, rfl⟩ := List.mem_map.mp ht
  obtain ⟨hi, hu⟩ := List.mem_enum hmem
  refine ⟨u, ?_, ?_⟩
  · rw [hu]; exact List.getElem_mem hi
  · rfl

theorem mem_splice {l : List Task} {src dest : Nat} {item t : Task}
    (hsome : l[src]? = some item)
    (ht : t ∈ (l.eraseIdx src).take dest ++ item :: (l.eraseIdx src).drop dest) :
    t ∈ l := by
  rcases List.mem_append.mp ht with h | h
  · exact (List.eraseIdx_sublist l src).mem (List.mem_of_mem_take h)
  · rcases List.mem_cons.mp h with rfl | h
    · obtain ⟨hlt, heq⟩ := List.getElem?_eq_some.mp hsome
      rw [← heq]
      exact List.getElem_mem hlt
    · exact (List.eraseIdx_sublist l src).mem (List.mem_of_mem_drop h)

/-- C1 counterexample: on the seed state with status filter "active" and
priority sort, the completed task (id "3") is in the state but not in the
displayed view; a drag of the first displayed item onto index 1 dispatches
a ReorderTasks payload, and the resulting state no longer contains any task
with id "3" — the hidden task does not remain present. -/
theorem C1_counterexample :
    ((initialState 0).tasks.any (fun t => t.id == "3") = true) ∧
    ((filteredAndSortedTasks (initialState 0).tasks "" .active none none .priority).all
        (fun t => !(t.id == "3")) = true) ∧
    (handleDragEnd (filteredAndSortedTasks (initialState 0).tasks "" .active none none
        .priority) ⟨0, some 1⟩ ≠ none) ∧
    ((tasksReducer (initialState 0)
        (.reorderTasks ((handleDragEnd (filteredAndSortedTasks (initialState 0).tasks ""
            .active none none .priority) ⟨0, some 1⟩).getD []))).tasks.all
        (fun t => !(t.id == "3")) = true) := by decide

/-- C1 (amended): for every state and every ReorderTasks intent constructed
by the drag-end boundary logic from the currently displayed sequence, the
reducer replaces the task collection with exactly the repositioned
displayed items (tags untouched): every task of the resulting state comes
from the displayed view with only its position reassigned, so tasks not in
the current filtered view are dropped rather than retained. -/
theorem C1_reorder_replaces_with_displayed (state : TasksState) (q : String)
    (st : StatusFilter) (pf : Option Int) (tf : Option String) (sk : SortKey)
    (res : DragResult) (payload : List Task)
    (h : handleDragEnd (filteredAndSortedTasks state.tasks q st pf tf sk) res =
      some payload) :
    ReorderOutcome state q st pf tf sk payload := by
  unfold handleDragEnd at h
  cases hdest : res.destination with
  | none => rw [hdest] at h; exact absurd h (by simp)
  | some dest =>
    rw [hdest] at h
    cases hsrc : (filteredAndSortedTasks state.tasks q st pf tf sk)[res.source]? with
    | none => rw [hsrc] at h; exact absurd h (by simp)
    | some item =>
      rw [hsrc] at h
      simp only [Option.some.injEq] at h
      refine ⟨rfl, rfl, ?_⟩
      intro t ht
      rw [← h] at ht
      obtain ⟨u, hu, htu⟩ := mapIdx_position _ t ht
      exact ⟨u, mem_splice hsrc hu, htu⟩

/-- C1 witness: the amended statement holds concretely for the seed state
with the "active" filter and the drag used in the counterexample. -/
theorem C1_reorder_replaces_with_displayed_witness :
    (handleDragEnd (filteredAndSortedTasks (initialState 0).tasks "" .active none none
        .priority) ⟨0, some 1⟩ =
      some ((handleDragEnd (filteredAndSortedTasks (initialState 0).tasks "" .active
          none none .priority) ⟨0, some 1⟩).getD [])) ∧
    ReorderOutcome (initialState 0) "" .active none none .priority
      ((handleDragEnd (filteredAndSortedTasks (initialState 0).tasks "" .active none
          none .priority) ⟨0, some 1⟩).getD []) :=
  ⟨by decide, C1_reorder_replaces_with_displayed (initialState 0) "" .active none none
      .priority ⟨0, some 1⟩ _ (by decide)⟩

/-- C2 counterexample: the seed state satisfies the completed/completedAt
invariant, but an EditTask intent whose payload has completed = true and
completedAt absent (id matching seed task "1") yields a state that
violates it — the transition function does not preserve the invariant for
every intent. -/
theorem C2_counterexample :
    stateConsistent (initialState 0) = true ∧
    stateConsistent (tasksReducer (initialState 0)
        (.editTask (simpleTask "1" true none))) = false := by decide

/-- C2 (amended): the completed ⟺ completedAt-present invariant is
preserved by the transition function for every state satisfying it and
every intent whose adopted payload tasks satisfy it themselves (ToggleTask,
DeleteTask, AddTag, EditTag and DeleteTag preserve it unconditionally;
AddTask, EditTask, ReplaceAll and ReorderTasks adopt their payload tasks
verbatim and need the side condition). -/
theorem C2_invariant_preserved (s : TasksState) (a : TaskAction)
    (hs : stateConsistent s = true)
    (ha : (actionTasks a).all taskConsistent = true) :
    stateConsistent (tasksReducer s a) = true := by
  cases a with
  | addTask p =>
      simp only [stateConsistent, tasksReducer, actionTasks, List.all_append] at *
      simp_all
  | toggleTask idArg date =>
      simp only [stateConsistent, tasksReducer, List.all_eq_true] at *
      intro t ht
      obtain ⟨u, hu, rfl⟩ := List.mem_map.mp ht
      by_cases h : u.id = idArg
      · simp only [h, if_pos rfl, taskConsistent]
        cases hc : u.completed <;> simp
      · simp only [if_neg h]
        exact hs u hu
  | deleteTask p =>
      simp only [stateConsistent, tasksReducer, List.all_eq_true] at *
      intro t ht
      exact hs t (List.mem_of_mem_filter ht)
  | editTask p =>
      simp only [stateConsistent, tasksReducer, actionTasks, List.all_eq_true] at *
      intro t ht
      obtain ⟨u, hu, rfl⟩ := List.mem_map.mp ht
      by_cases h : u.id = p.id
      · simp only [if_pos h]
        exact ha p (List.mem_cons_self p [])
      · simp only [if_neg h]
        exact hs u hu
  | replaceAll p =>
      simpa [stateConsistent, actionTasks, tasksReducer] using ha
  | reorderTasks p =>
      simpa [stateConsistent, actionTasks, tasksReducer] using ha
  | addTag p =>
      simpa [stateConsistent, tasksReducer] using hs
  | editTag p =>
      simpa [stateConsistent, tasksReducer] using hs
  | deleteTag p =>
      simp only [stateConsistent, tasksReducer, List.all_eq_true] at *
      intro t ht
      obtain ⟨u, hu, rfl⟩ := List.mem_map.mp ht
      exact hs u hu

/-- C2 witness: preservation holds concretely on the seed state for a
ToggleTask intent. -/
theorem C2_invariant_preserved_witness :
    stateConsistent (initialState 0) = true ∧
    (actionTasks (.toggleTask "1" 99)).all taskConsistent = true ∧
    stateConsistent (tasksReducer (initialState 0) (.toggleTask "1" 99)) = true :=
  ⟨by decide, by decide,
    C2_invariant_preserved (initialState 0) (.toggleTask "1" 99) (by decide) (by decide)⟩

/-- C3 counterexample: a task with completedAt absent but completed = true
(the claim assumes only that completedAt was absent) toggled twice ends
with completedAt = some 2, not absent — the double-toggle clause fails
without assuming the task started uncompleted. -/
theorem C3_counterexample :
    (simpleTask "1" true none).completedAt = none ∧
    (simpleTask "1" true none).completed = true ∧
    ((tasksReducer (tasksReducer ⟨[simpleTask "1" true none], []⟩ (.toggleTask "1" 1))
        (.toggleTask "1" 2)).tasks.map (fun t => (t.completed, t.completedAt))) =
      [(true, some 2)] := by decide

/-- C3 (amended): ToggleTask flips the matching task's completed flag and
sets completedAt to the supplied time when it becomes completed, to absent
when it becomes uncompleted; and if the task originally had completedAt
absent and was not completed, toggling twice restores it exactly. -/
theorem C3_toggle_flips_and_double_toggle_restores (s : TasksState) (idArg : String)
    (d1 d2 : Int) (i : Nat) (t : Task) (ht : s.tasks[i]? = some t) :
    ToggleBehavior s idArg d1 d2 i t := by
  obtain ⟨tid, tname, tdesc, tdue, tcomp, tprio, ttags, tcr, tca, tpos⟩ := t
  constructor
  · simp only [tasksReducer, List.getElem?_map, ht, Option.map_some']
  · intro hc hca
    simp only at hc hca
    subst hc; subst hca
    simp only [tasksReducer, List.getElem?_map, ht, Option.map_some']
    by_cases h : tid = idArg <;> simp [h]

/-- C3 witness: the toggle behaviour holds concretely for a single
uncompleted task toggled with times 5 and 7. -/
theorem C3_toggle_flips_and_double_toggle_restores_witness :
    ((⟨[simpleTask "1" false none], []⟩ : TasksState).tasks[0]? =
      some (simpleTask "1" false none)) ∧
    ToggleBehavior ⟨[simpleTask "1" false none], []⟩ "1" 5 7 0
      (simpleTask "1" false none) :=
  ⟨by decide, C3_toggle_flips_and_double_toggle_restores _ "1" 5 7 0 _ (by decide)⟩

theorem charDigit_digitChar : ∀ d < 10, charDigit (digitChar d) = d := by decide

theorem digitChar_ne_dash : ∀ d < 10, digitChar d ≠ '-' := by decide

theorem stringToNat_natToString (n : Nat) : stringToNat (natToString n) = n := by
  by_cases h : n = 0
  · subst h; decide
  · simp only [natToString, if_neg h, stringToNat]
    rw [List.map_reverse, List.reverse_reverse, List.map_map]
    rw [show (Nat.digits 10 n).map (charDigit ∘ digitChar) = (Nat.digits 10 n).map id from
          List.map_congr_left (fun d hd =>
            charDigit_digitChar d (Nat.digits_lt_base (by norm_num) hd))]
    rw [List.map_id, Nat.ofDigits_digits]

theorem natToString_head_ne_dash (n : Nat) : (natToString n).data.head? ≠ some '-' := by
  by_cases h : n = 0
  · subst h; decide
  · simp only [natToString, if_neg h]
    intro hh
    have hmem : '-' ∈ (((Nat.digits 10 n).map digitChar).reverse) :=
      List.mem_of_mem_head? hh
    rw [List.mem_reverse] at hmem
    obtain ⟨d, hd, hdc⟩ := List.mem_map.mp hmem
    exact digitChar_ne_dash d (Nat.digits_lt_base (by norm_num) hd) hdc

theorem string_mk_data (s : String) : String.mk s.data = s := rfl

/-- The date encoding is invertible: rehydrating a stored date string gives
back the original timestamp. -/
theorem stringToDate_dateToString (t : Int) : stringToDate (dateToString t) = t := by
  by_cases h : t < 0
  · simp only [dateToString, if_pos h, stringToDate]
    rw [if_pos (show ('-' :: (natToString t.natAbs).data).head? = some '-' from rfl)]
    simp only [List.tail_cons]
    rw [string_mk_data, stringToNat_natToString]
    omega
  · simp only [dateToString, if_neg h, stringToDate]
    rw [if_neg (natToString_head_ne_dash t.natAbs), stringToNat_natToString]
    omega

/-- C6: for every state containing at least one task with a non-null
completedAt, saving (serialize, dates as strings) and then loading
(deserialize, rehydrate dueDate, createdAt and completedAt) reproduces the
original state, timestamps restored as timestamps. -/
theorem C6_save_load_roundtrip (s : TasksState)
    (hc : s.tasks.any (fun t => t.completedAt.isSome) = true) :
    loadStored (saveState s) = s := by
  obtain ⟨tasks, tags⟩ := s
  simp only [saveState, loadStored, List.map_map, TasksState.mk.injEq, and_true]
  rw [show tasks.map ((fun task : StoredTask =>
        ({ id := task.id, name := task.name, description := task.description,
           dueDate := stringToDate task.dueDate, completed := task.completed,
           priority := task.priority, tags := task.tags,
           createdAt := stringToDate task.createdAt,
           completedAt := match task.completedAt with
             | some d => some (stringToDate d)
             | none => none,
           position := task.position } : Task)) ∘ storeTask) = tasks.map id from
      List.map_congr_left ?_, List.map_id]
  intro t _
  obtain ⟨tid, tname, tdesc, tdue, tcomp, tprio, ttags, tcr, tca, tpos⟩ := t
  cases tca <;> simp [Function.comp_apply, storeTask, stringToDate_dateToString]

/-- C6 witness: the round trip holds concretely on the seed state, whose
task "3" has a non-null completedAt. -/
theorem C6_save_load_roundtrip_witness :
    ((initialState 0).tasks.any (fun t => t.completedAt.isSome) = true) ∧
    loadStored (saveState (initialState 0)) = initialState 0 :=
  ⟨by decide, C6_save_load_roundtrip (initialState 0) (by decide)⟩

/-- C7: for every stored value whose deserialization fails, the load effect
catches the failure, logs it, and leaves the state as the built-in seed
data; `loadEffect` is total, so the failure never propagates. -/
theorem C7_load_failure_keeps_seed (parse : String → Except String StoredState)
    (s e : String) (now : Int) (h : parse s = .error e) :
    loadEffect (some s) parse (initialState now) =
      (initialState now, ["Error parsing saved tasks: " ++ e]) := by
  simp [loadEffect, h]

/-- C7 witness: a parse that always fails leaves the seed state and logs. -/
theorem C7_load_failure_keeps_seed_witness :
    ((fun _ : String => (Except.error "SyntaxError" : Except String StoredState))
        "not json" = Except.error "SyntaxError") ∧
    loadEffect (some "not json")
        (fun _ : String => (Except.error "SyntaxError" : Except String StoredState))
        (initialState 0) =
      (initialState 0, ["Error parsing saved tasks: " ++ "SyntaxError"]) :=
  ⟨rfl, C7_load_failure_keeps_seed _ "not json" "SyntaxError" 0 rfl⟩

end TaskMgr
